import Mathlib

/-!
Shallow embedding of the reconnaissance API job layer (`server/server.js`):
the domain-validation regex, request validation, subprocess invocation and
promise settlement, the POST /api/reconnaissance handler, the result-file
reader and the two GET /api/results handlers.
-/

namespace ReconApi

/-! ### Domain validation

`server.js` validates domains with the anchored regex
`^[a-zA-Z0-9][a-zA-Z0-9\-]{0,61}[a-zA-Z0-9]?\.[a-zA-Z]{2,}$`, once through
`express-validator` (line 56) and twice inline in the GET routes
(lines 235 and 275). -/

/-- The character class `[a-zA-Z0-9-]` of the domain regex. -/
def isLabelChar (c : Char) : Bool := c.isAlphanum || c == '-'

/-- Split a character list at every `'.'`.  The label part of the regex
cannot contain a dot and the suffix part is purely alphabetic, so a match
forces exactly one dot; splitting at dots lets the matcher be stated
structurally. -/
def splitOnDot : List Char → List (List Char)
  | [] => [[]]
  | c :: rest =>
    if c = '.' then [] :: splitOnDot rest
    else
      match splitOnDot rest with
      | [] => [[c]]
      | p :: ps => (c :: p) :: ps

/-- Transliteration of the label part
`[a-zA-Z0-9][a-zA-Z0-9\-]{0,61}[a-zA-Z0-9]?` of the domain regex: one
alphanumeric character, then either up to 61 label characters with the
optional trailing alphanumeric left empty, or up to 61 label characters
followed by one trailing alphanumeric. -/
def labelMatch : List Char → Bool
  | [] => false
  | c :: rest =>
    c.isAlphanum &&
      ((rest.length ≤ 61 && rest.all isLabelChar) ||
       (!rest.isEmpty && rest.length ≤ 62 && rest.dropLast.all isLabelChar
         && (rest.getLastD ' ').isAlphanum))

/-- The whole domain regex: a label, one dot, then `[a-zA-Z]{2,}`. -/
def validDomainChars (l : List Char) : Bool :=
  match splitOnDot l with
  | [label, tld] => labelMatch label && 2 ≤ tld.length && tld.all Char.isAlpha
  | _ => false

/-- Domain validation as applied to a request string. -/
def validDomainStr (s : String) : Bool := validDomainChars s.data

/-- Direct characterization of the regex's label language: nonempty, at
most 63 characters drawn from `[a-zA-Z0-9-]`, the first alphanumeric, and
when the length is exactly 63 the last alphanumeric as well. -/
def specLabel (l : List Char) : Bool :=
  !l.isEmpty && (l.headD ' ').isAlphanum && l.all isLabelChar
    && l.length ≤ 63 && (decide (l.length < 63) || (l.getLastD ' ').isAlphanum)

/-- Modelled from the spec: one DNS label — 1 to 63 characters over
letters, digits and hyphen, starting and ending with an alphanumeric
character. -/
def dnsLabelOk (l : List Char) : Bool :=
  !l.isEmpty && l.length ≤ 63 && l.all isLabelChar
    && (l.headD ' ').isAlphanum && (l.getLastD ' ').isAlphanum

/-- Modelled from the spec: "a validated DNS-label sequence ending in a
public-suffix-like label" — two or more dot-separated DNS labels, the last
purely alphabetic of length at least 2. -/
def specDnsDomain (s : String) : Bool :=
  let parts := splitOnDot s.data
  2 ≤ parts.length && parts.all dnsLabelOk
    && (parts.getLastD []).all Char.isAlpha && 2 ≤ (parts.getLastD []).length

/-- Direct characterization of the full regex language: exactly two
dot-separated components, the first in the label language, the second
purely alphabetic of length at least 2. -/
def specTwoLabelDomain (s : String) : Bool :=
  match splitOnDot s.data with
  | [label, tld] => specLabel label && 2 ≤ tld.length && tld.all Char.isAlpha
  | _ => false


/-! ### Subprocess invocation and promise settlement -/

/-- Event terminating a child process's lifecycle: either the `close`
event with an exit code, or the `error` event with the error's `code`
(such as `"ENOENT"`) and its message. -/
inductive ProcEvent where
  | close (code : Int)
  | errEv (errCode errMsg : String)
deriving DecidableEq

/-- One spawned process: its terminating event and captured output. -/
structure ProcRun where
  event : ProcEvent
  stdout : String
  stderr : String
deriving DecidableEq

/-- Settlement of the `executeScript` promise. -/
inductive Settled where
  | resolved (message output : String)
  | rejected (errMsg : String)
deriving DecidableEq

def Settled.isResolved : Settled → Bool
  | .resolved .. => true
  | .rejected _ => false

/-- Embedding of `handlePythonProcess` (server.js lines 108-139): on
`close` with code 0 the promise resolves carrying the captured stdout; on
any other exit code it rejects with a message carrying the code, stdout
and stderr; on an `error` event it rejects with the error's message. -/
def handlePythonProcess (stdout stderr : String) : ProcEvent → Settled
  | .close code =>
      if code = 0 then
        .resolved "Reconnaissance completed successfully" stdout
      else
        .rejected ("Script exited with code " ++ toString code ++
          "\nSTDOUT: " ++ stdout ++ "\nSTDERR: " ++ stderr)
  | .errEv _ msg => .rejected ("Error executing script: " ++ msg)

/-- Settlement attempts made against the `executeScript` promise, in
temporal order (server.js lines 77-106).  The executor attaches two
`error` listeners to the primary process: the fallback listener of line
94 and the one `handlePythonProcess` installs at line 136.  Listeners run
synchronously in registration order, and any event of the fallback child
spawned by the first listener is delivered on a later tick, so when the
primary spawn fails with `ENOENT` the second listener's `reject` is
attempted before the fallback process can settle anything. -/
def executeScriptAttempts (primary fallback : ProcRun) : List Settled :=
  match primary.event with
  | .close code =>
      [handlePythonProcess primary.stdout primary.stderr (.close code)]
  | .errEv errCode msg =>
      if errCode = "ENOENT" then
        [.rejected ("Error executing script: " ++ msg),
         handlePythonProcess fallback.stdout fallback.stderr fallback.event]
      else
        [.rejected ("Error executing script: " ++ msg),
         .rejected ("Error executing script: " ++ msg)]

/-- A promise settles with its first settlement attempt. -/
def executeScript (primary fallback : ProcRun) : Settled :=
  (executeScriptAttempts primary fallback).headD (.rejected "")

/-! ### Request validation and the POST handler -/

/-- Body of a POST /api/reconnaissance request; numeric fields carry the
parsed integer, absent fields are `none`. -/
structure ReconRequest where
  domain : String
  timeout : Option Int
  workers : Option Int
  verbose : Bool
  jsonOnly : Bool
  csvOnly : Bool
deriving DecidableEq

/-- The `express-validator` bound check for `timeout` (lines 59-62). -/
def timeoutValid : Option Int → Bool
  | none => true
  | some t => 30 ≤ t && t ≤ 300

/-- The `express-validator` bound check for `workers` (lines 64-67). -/
def workersValid : Option Int → Bool
  | none => true
  | some w => 1 ≤ w && w ≤ 30

/-- The whole `validateDomain` chain of line 52: domain format plus both
bound checks. -/
def validateRequest (r : ReconRequest) : Bool :=
  validDomainStr r.domain && timeoutValid r.timeout && workersValid r.workers

/-- JavaScript `x || d` on an optional number: `undefined` and `0` are
falsy and select the default. -/
def jsOr (v : Option Int) (d : Int) : Int :=
  match v with
  | none => d
  | some t => if t = 0 then d else t

/-- One element of the `spawn` argument array, which in `server.js` mixes
strings and numbers. -/
inductive JsArg where
  | s (v : String)
  | n (v : Int)
deriving DecidableEq

/-- The argument array built by `executeScript` (lines 79-88): script
path, domain, output dir, timeout and workers with JS `||` defaults, the
three flags or empty strings, then `.filter(arg => arg !== "")`. -/
def scriptArgs (scriptPath : String) (r : ReconRequest) (resultsDir : String) :
    List JsArg :=
  ([JsArg.s scriptPath, JsArg.s r.domain,
    JsArg.s "--output-dir", JsArg.s resultsDir,
    JsArg.s "--timeout", JsArg.n (jsOr r.timeout 300),
    JsArg.s "--workers", JsArg.n (jsOr r.workers 20),
    JsArg.s (if r.verbose then "--verbose" else ""),
    JsArg.s (if r.jsonOnly then "--json-only" else ""),
    JsArg.s (if r.csvOnly then "--csv-only" else "")]).filter (· ≠ JsArg.s "")

/-! ### Reports -/

/-- One probe result as it appears in a report's `active_hosts`. -/
structure ProbeResult where
  hostname : String
  classification : String
deriving DecidableEq

/-- The report structure of the JSON schema. -/
structure Report where
  domain : String
  timestamp : String
  total_subdomains : Nat
  active_subdomains : Nat
  subdomains : List String
  active_hosts : List ProbeResult
  errors : List String
deriving DecidableEq

/-- The empty report the POST handler synthesizes when the results file
could not be read and the script output is not JSON (lines 201-209). -/
def synthesizedReport (domain now fileErrMsg : String) : Report :=
  { domain := domain
    timestamp := now
    total_subdomains := 0
    active_subdomains := 0
    subdomains := []
    active_hosts := []
    errors := ["Failed to create results file: " ++ fileErrMsg] }

/-- Outcome of the POST /api/reconnaissance handler. -/
inductive PostResult where
  | validationError
  | ok (results : Report)
  | serverError (errMsg : String)
deriving DecidableEq

def PostResult.status : PostResult → Nat
  | .validationError => 400
  | .ok _ => 200
  | .serverError _ => 500

def PostResult.success : PostResult → Bool
  | .ok _ => true
  | _ => false

/-- The POST /api/reconnaissance handler (lines 161-228).  `fileContent`
is the content of `results/domain/domain_reconnaissance_report.json` when
that file exists and is readable (`none` otherwise), `parse` stands for
`JSON.parse` into the report shape, `now` is the current timestamp and
`fileErrMsg` the message of the error raised when the file cannot be
accessed or parsed.  The second component records whether the python
subprocess was spawned. -/
def postRecon (r : ReconRequest) (primary fallback : ProcRun)
    (fileContent : Option String) (parse : String → Option Report)
    (now fileErrMsg : String) : PostResult × Bool :=
  if validateRequest r then
    match executeScript primary fallback with
    | .rejected msg => (.serverError msg, true)
    | .resolved _ out =>
        match fileContent >>= parse with
        | some rep => (.ok rep, true)
        | none =>
            match parse out with
            | some rep => (.ok rep, true)
            | none => (.ok (synthesizedReport r.domain now fileErrMsg), true)
  else
    (.validationError, false)

/-! ### Result files and the GET handlers -/

/-- `path.join` in the simple slash-free two-component cases used here. -/
def pathJoin (a b : String) : String := a ++ "/" ++ b

/-- Filename selection of `readResults` (lines 142-144). -/
def resultsFilename (domain format : String) : String :=
  if format = "json" then domain ++ "_reconnaissance_report.json"
  else domain ++ "_subdomains.csv"

/-- The per-domain results directory `results/domain`, relative to
`__dirname` (lines 179, 243 and 286). -/
def resultsDirFor (domain : String) : String := pathJoin "results" domain

/-- Path read by `readResults` when called from the GET route. -/
def readResultsPath (domain format : String) : String :=
  pathJoin (resultsDirFor domain) (resultsFilename domain format)

/-- Path accessed by the download route (lines 282-286), which recomputes
the filename with its own copy of the ternary. -/
def downloadPath (domain format : String) : String :=
  pathJoin (pathJoin "results" domain)
    (if format = "json" then domain ++ "_reconnaissance_report.json"
     else domain ++ "_subdomains.csv")

/-- Result of `readResults` (lines 141-154): the parsed report for format
`json`, the raw file body otherwise, or a thrown error when the file is
missing or unreadable or when `JSON.parse` fails. -/
inductive ReadOutcome where
  | jsonData (rep : Report)
  | rawData (body : String)
  | readFail
deriving DecidableEq

def readResults (fileContent : Option String) (parse : String → Option Report)
    (format : String) : ReadOutcome :=
  match fileContent with
  | none => .readFail
  | some data =>
      if format = "json" then
        match parse data with
        | some rep => .jsonData rep
        | none => .readFail
      else .rawData data

/-- Response of GET /api/results/:domain (lines 230-268). -/
inductive GetResult where
  | badRequest
  | notFound
  | jsonOk (data : Report) (domain format timestamp : String)
  | csvOk (body contentType dispo : String)
deriving DecidableEq

def GetResult.status : GetResult → Nat
  | .badRequest => 400
  | .notFound => 404
  | .jsonOk .. => 200
  | .csvOk .. => 200

/-- The `success` field of the JSON responses; the raw CSV response has
no such field. -/
def GetResult.successField : GetResult → Option Bool
  | .badRequest => some false
  | .notFound => some false
  | .jsonOk .. => some true
  | .csvOk .. => none

/-- GET /api/results/:domain.  The second component records whether the
filesystem was touched. -/
def getResults (domain format : String) (fileContent : Option String)
    (parse : String → Option Report) (now : String) : GetResult × Bool :=
  if validDomainStr domain then
    match readResults fileContent parse format with
    | .readFail => (.notFound, true)
    | .jsonData rep => (.jsonOk rep domain format now, true)
    | .rawData body =>
        (.csvOk body "text/csv"
          ("attachment; filename=\"" ++ domain ++ "_subdomains.csv\""), true)
  else
    (.badRequest, false)

/-- Response of GET /api/results/:domain/download (lines 270-303). -/
inductive DlResult where
  | badRequest
  | notFound
  | fileSend (path filename contentType dispo : String)
deriving DecidableEq

/-- GET /api/results/:domain/download.  `fileOk` says whether
`fs.promises.access` succeeds on the computed path; the second component
records whether the filesystem was touched. -/
def downloadResults (domain format : String) (fileOk : Bool) : DlResult × Bool :=
  if validDomainStr domain then
    let filename :=
      if format = "json" then domain ++ "_reconnaissance_report.json"
      else domain ++ "_subdomains.csv"
    if fileOk then
      (.fileSend (pathJoin (pathJoin "results" domain) filename) filename
        (if format = "json" then "application/json" else "text/csv")
        ("attachment; filename=\"" ++ filename ++ "\""), true)
    else (.notFound, true)
  else
    (.badRequest, false)

/-- A `JSON.parse` stand-in that always fails; used to instantiate
concrete scenarios. -/
def parseNone : String → Option Report := fun _ => none

/-- A `JSON.parse` stand-in returning a fixed report; used to instantiate
concrete scenarios. -/
def repEx : Report :=
  { domain := "example.com", timestamp := "TS", total_subdomains := 0,
    active_subdomains := 0, subdomains := [], active_hosts := [], errors := [] }

def parseEx : String → Option Report := fun _ => some repEx

/-- A request with a valid domain and all optional fields absent. -/
def rEx : ReconRequest :=
  { domain := "example.com", timeout := none, workers := none,
    verbose := false, jsonOnly := false, csvOnly := false }

/-- A request whose timeout is out of range. -/
def rBad : ReconRequest :=
  { domain := "example.com", timeout := some 500, workers := none,
    verbose := false, jsonOnly := false, csvOnly := false }

/-- A request whose domain has no dot at all. -/
def rNope : ReconRequest :=
  { domain := "nope", timeout := none, workers := none,
    verbose := false, jsonOnly := false, csvOnly := false }

/-- A primary process that exits cleanly with unparsable stdout. -/
def pOk : ProcRun := { event := ProcEvent.close 0, stdout := "not json", stderr := "" }

/-- A primary process that exits with code 1. -/
def pFail : ProcRun := { event := ProcEvent.close 1, stdout := "so", stderr := "se" }

/-- A fallback process that exits cleanly. -/
def fbEx : ProcRun := { event := ProcEvent.close 0, stdout := "", stderr := "" }

/-- A valid request with an explicit timeout and the verbose flag set. -/
def rFlags : ReconRequest :=
  { domain := "example.com", timeout := some 60, workers := none,
    verbose := true, jsonOnly := false, csvOnly := false }

theorem alnum_isLabelChar {c : Char} (h : c.isAlphanum = true) :
    isLabelChar c = true := by
  simp [isLabelChar, h]

theorem labelMatch_eq_specLabel (l : List Char) : labelMatch l = specLabel l := by
  cases l with
  | nil => rfl
  | cons c rest =>
    rcases rest.eq_nil_or_concat with rfl | ⟨ys, y, rfl⟩
    · cases hc : c.isAlphanum <;> simp [labelMatch, specLabel, isLabelChar, hc]
    · simp only [List.concat_eq_append]
      have hl3 : (c :: (ys ++ [y])).getLastD ' ' = y := by
        rw [List.getLastD_cons]; exact List.getLastD_concat _ _ _
      have hne : (ys ++ [y]).isEmpty = false := by simp
      apply Bool.eq_iff_iff.mpr
      simp only [labelMatch, specLabel, List.all_append, List.all_cons, List.all_nil,
        List.dropLast_concat, List.getLastD_concat, hl3, hne, List.length_append,
        List.length_cons, List.length_nil, List.isEmpty_cons, List.headD_cons,
        Bool.not_false, Bool.and_true, Bool.true_and, Bool.and_eq_true,
        Bool.or_eq_true, decide_eq_true_eq]
      constructor
      · rintro ⟨hc, ⟨hlen, hall, hyl⟩ | ⟨⟨hlen, hall⟩, hy⟩⟩
        · exact ⟨⟨⟨hc, alnum_isLabelChar hc, hall, hyl⟩, by omega⟩, Or.inl (by omega)⟩
        · exact ⟨⟨⟨hc, alnum_isLabelChar hc, hall, alnum_isLabelChar hy⟩, by omega⟩, Or.inr hy⟩
      · rintro ⟨⟨⟨hc, hcl, hall, hyl⟩, hlen⟩, hlt | hy⟩
        · exact ⟨hc, Or.inl ⟨by omega, hall, hyl⟩⟩
        · exact ⟨hc, Or.inr ⟨⟨by omega, hall⟩, hy⟩⟩

theorem splitOnDot_cons_dot (rest : List Char) :
    splitOnDot ('.' :: rest) = [] :: splitOnDot rest := by
  simp [splitOnDot]

theorem splitOnDot_cons_ne {c : Char} (rest : List Char) (hc : c ≠ '.') :
    splitOnDot (c :: rest) =
      match splitOnDot rest with
      | [] => [[c]]
      | p :: ps => (c :: p) :: ps := by
  simp [splitOnDot, hc]

theorem splitOnDot_ne_nil (l : List Char) : splitOnDot l ≠ [] := by
  cases l with
  | nil => simp [splitOnDot]
  | cons c rest =>
    by_cases hc : c = '.'
    · subst hc; rw [splitOnDot_cons_dot]; simp
    · rw [splitOnDot_cons_ne rest hc]
      cases h : splitOnDot rest <;> simp

theorem splitOnDot_single : ∀ {l q : List Char}, splitOnDot l = [q] → l = q ∧ '.' ∉ q := by
  intro l
  induction l with
  | nil =>
    intro q h
    simp only [splitOnDot, List.cons.injEq] at h
    exact ⟨h.1, by rw [← h.1]; simp⟩
  | cons c rest ih =>
    intro q h
    by_cases hc : c = '.'
    · subst hc
      rw [splitOnDot_cons_dot] at h
      simp only [List.cons.injEq] at h
      exact absurd h.2 (splitOnDot_ne_nil rest)
    · rw [splitOnDot_cons_ne rest hc] at h
      cases hrest : splitOnDot rest with
      | nil => exact absurd hrest (splitOnDot_ne_nil rest)
      | cons p ps =>
        rw [hrest] at h
        simp only [List.cons.injEq] at h
        obtain ⟨hq, hps⟩ := h
        have hone : splitOnDot rest = [p] := by rw [hrest, hps]
        obtain ⟨hr, hp⟩ := ih hone
        constructor
        · rw [hr]; exact hq
        · rw [← hq]
          simp only [List.mem_cons, not_or]
          exact ⟨Ne.symm hc, hp⟩

theorem splitOnDot_pair : ∀ {l p q : List Char}, splitOnDot l = [p, q] →
    l = p ++ '.' :: q ∧ '.' ∉ p ∧ '.' ∉ q := by
  intro l
  induction l with
  | nil =>
    intro p q h
    simp [splitOnDot] at h
  | cons c rest ih =>
    intro p q h
    by_cases hc : c = '.'
    · subst hc
      rw [splitOnDot_cons_dot] at h
      simp only [List.cons.injEq] at h
      obtain ⟨hp, hrest⟩ := h
      obtain ⟨hr, hq⟩ := splitOnDot_single hrest
      refine ⟨?_, ?_, hq⟩
      · rw [← hp, hr]; rfl
      · rw [← hp]; simp
    · rw [splitOnDot_cons_ne rest hc] at h
      cases hrest : splitOnDot rest with
      | nil => exact absurd hrest (splitOnDot_ne_nil rest)
      | cons p' ps =>
        rw [hrest] at h
        simp only [List.cons.injEq] at h
        obtain ⟨hp, hps⟩ := h
        have hpair : splitOnDot rest = [p', q] := by rw [hrest, hps]
        obtain ⟨hr, hp', hq⟩ := ih hpair
        refine ⟨?_, ?_, hq⟩
        · rw [hr, ← hp]; rfl
        · rw [← hp]
          simp only [List.mem_cons, not_or]
          exact ⟨Ne.symm hc, hp'⟩


theorem alpha_isAlphanum {c : Char} (h : c.isAlpha = true) : c.isAlphanum = true := by
  simp [Char.isAlphanum, h]

theorem specLabel_all {l : List Char} (h : specLabel l = true) :
    l.all isLabelChar = true := by
  simp only [specLabel, Bool.and_eq_true] at h
  exact h.1.1.2

theorem valid_domain_structure {l : List Char} (h : validDomainChars l = true) :
    ∃ p q, splitOnDot l = [p, q] ∧ l = p ++ '.' :: q ∧ '.' ∉ p ∧ '.' ∉ q ∧
      specLabel p = true ∧ 2 ≤ q.length ∧ q.all Char.isAlpha = true := by
  unfold validDomainChars at h
  split at h
  · next label tld heq =>
      obtain ⟨hl, hp, hq⟩ := splitOnDot_pair heq
      simp only [Bool.and_eq_true, decide_eq_true_eq] at h
      exact ⟨label, tld, heq, hl, hp, hq, labelMatch_eq_specLabel label ▸ h.1.1,
        h.1.2, h.2⟩
  · next => simp at h

/-- Claim C2: the run is Completed exactly when the monitored process
closes with exit code 0.  A non-zero exit code rejects the promise with a
message carrying the exit code and the captured stdout and stderr; an
`error` event rejects with the spawn error's message; in particular a
non-ENOENT spawn error of the primary process leaves the whole
`executeScript` promise rejected.  A rejected promise makes the POST
handler answer HTTP 500 with `success:false`. -/
theorem handle_python_process_outcome
    (stdout stderr : String) (ev : ProcEvent)
    (r : ReconRequest) (primary fallback : ProcRun)
    (fileContent : Option String) (parse : String → Option Report)
    (now fileErrMsg msg : String) :
    ((handlePythonProcess stdout stderr ev).isResolved = true ↔ ev = ProcEvent.close 0)
    ∧ (∀ code : Int, code ≠ 0 →
        handlePythonProcess stdout stderr (ProcEvent.close code) =
          Settled.rejected ("Script exited with code " ++ toString code ++
            "\nSTDOUT: " ++ stdout ++ "\nSTDERR: " ++ stderr))
    ∧ (∀ errCode errMsg,
        handlePythonProcess stdout stderr (ProcEvent.errEv errCode errMsg) =
          Settled.rejected ("Error executing script: " ++ errMsg))
    ∧ (∀ errCode errMsg, errCode ≠ "ENOENT" →
        primary.event = ProcEvent.errEv errCode errMsg →
        executeScript primary fallback =
          Settled.rejected ("Error executing script: " ++ errMsg))
    ∧ (validateRequest r = true →
        executeScript primary fallback = Settled.rejected msg →
        postRecon r primary fallback fileContent parse now fileErrMsg =
          (PostResult.serverError msg, true)
        ∧ (PostResult.serverError msg).status = 500
        ∧ (PostResult.serverError msg).success = false) := by
  refine ⟨?_, ?_, ?_, ?_, ?_⟩
  · rcases ev with code | ⟨ec, em⟩
    · by_cases h0 : code = 0 <;>
        simp [handlePythonProcess, Settled.isResolved, h0]
    · simp [handlePythonProcess, Settled.isResolved]
  · intro code hcode
    simp [handlePythonProcess, hcode]
  · intro errCode errMsg
    simp [handlePythonProcess]
  · intro errCode errMsg hne hev
    simp [executeScript, executeScriptAttempts, hev, hne]
  · intro hv hrej
    simp [postRecon, hv, hrej, PostResult.status, PostResult.success]

theorem handle_python_process_outcome_witness :
    (1 : Int) ≠ 0 ∧
    handlePythonProcess "so" "se" (ProcEvent.close 1) =
      Settled.rejected ("Script exited with code " ++ toString (1 : Int) ++
        "\nSTDOUT: " ++ "so" ++ "\nSTDERR: " ++ "se") :=
  ⟨by decide,
   (handle_python_process_outcome "so" "se" (ProcEvent.close 1) rEx pFail fbEx
      none parseNone "TS" "E" "m").2.1 1 (by decide)⟩

/-- Claim C5 (code bug): the comment at line 90 promises "Try python3
first, then fallback to python", but when the `python3` spawn fails with
ENOENT the promise is rejected by the second `error` listener (the one
`handlePythonProcess` attached at line 136) before any event of the
fallback child is delivered, so a fallback process exiting 0 does not
resolve the run: `executeScript` stays rejected even though the very same
close event would have resolved it. -/
theorem enoent_fallback_success_still_rejected :
    executeScript
        { event := ProcEvent.errEv "ENOENT" "spawn python3 ENOENT",
          stdout := "", stderr := "" }
        { event := ProcEvent.close 0, stdout := "report", stderr := "" } =
      Settled.rejected ("Error executing script: spawn python3 ENOENT")
    ∧ (executeScript
        { event := ProcEvent.errEv "ENOENT" "spawn python3 ENOENT",
          stdout := "", stderr := "" }
        { event := ProcEvent.close 0, stdout := "report", stderr := "" }).isResolved
        = false
    ∧ handlePythonProcess "report" "" (ProcEvent.close 0) =
        Settled.resolved "Reconnaissance completed successfully" "report"
    ∧ executeScriptAttempts
        { event := ProcEvent.errEv "ENOENT" "spawn python3 ENOENT",
          stdout := "", stderr := "" }
        { event := ProcEvent.close 0, stdout := "report", stderr := "" } =
      [Settled.rejected ("Error executing script: spawn python3 ENOENT"),
       Settled.resolved "Reconnaissance completed successfully" "report"] := by
  refine ⟨rfl, rfl, rfl, rfl⟩

/-- Claim C6: in the one report the job layer builds itself — the empty
report synthesized when the results file cannot be read and the script
output is not JSON — `active_subdomains` equals the number of
`active`-classified entries of `active_hosts` and `total_subdomains`
equals the length of `subdomains`; both counts are 0, both lists empty,
and exactly one error string is recorded. -/
theorem synthesized_report_invariants (domain now fileErrMsg : String) :
    (synthesizedReport domain now fileErrMsg).active_subdomains =
      ((synthesizedReport domain now fileErrMsg).active_hosts.filter
        (fun h => h.classification == "active")).length
    ∧ (synthesizedReport domain now fileErrMsg).total_subdomains =
      (synthesizedReport domain now fileErrMsg).subdomains.length
    ∧ (synthesizedReport domain now fileErrMsg).total_subdomains = 0
    ∧ (synthesizedReport domain now fileErrMsg).active_subdomains = 0
    ∧ (synthesizedReport domain now fileErrMsg).subdomains = []
    ∧ (synthesizedReport domain now fileErrMsg).active_hosts = []
    ∧ (synthesizedReport domain now fileErrMsg).errors.length = 1 := by
  simp [synthesizedReport]

/-- Claim C7: result file names are fixed by domain and format — the
report JSON for format `json`, the subdomain CSV for any other format —
and both the read path and the download path live in the per-domain
results directory `results/domain`. -/
theorem result_filenames_fixed (domain format : String) :
    (format = "json" →
      resultsFilename domain format = domain ++ "_reconnaissance_report.json")
    ∧ (format ≠ "json" →
      resultsFilename domain format = domain ++ "_subdomains.csv")
    ∧ readResultsPath domain format =
        "results/" ++ domain ++ "/" ++ resultsFilename domain format
    ∧ downloadPath domain format = readResultsPath domain format := by
  refine ⟨fun h => by simp [resultsFilename, h], fun h => by simp [resultsFilename, h],
    ?_, ?_⟩
  · show pathJoin (pathJoin "results" domain) (resultsFilename domain format) = _
    simp only [pathJoin, String.append_assoc]
    rfl
  · rfl

theorem result_filenames_fixed_witness :
    "json" = "json" ∧
    resultsFilename "example.com" "json" = "example.com" ++ "_reconnaissance_report.json" :=
  ⟨rfl, (result_filenames_fixed "example.com" "json").1 rfl⟩


/-- Claim C1: for a validated request whose monitored subprocess closes
with exit code 0, the POST handler answers 200 with `success:true` and
some results object — the parsed report file when it exists and parses,
else the script stdout parsed as JSON, else the synthesized empty report
— and never a 500. -/
theorem post_success_on_exit_zero
    (r : ReconRequest) (primary fallback : ProcRun)
    (fileContent : Option String) (parse : String → Option Report)
    (now fileErrMsg : String)
    (hv : validateRequest r = true)
    (h0 : primary.event = ProcEvent.close 0) :
    postRecon r primary fallback fileContent parse now fileErrMsg =
      (PostResult.ok (match fileContent >>= parse with
        | some rep => rep
        | none =>
            match parse primary.stdout with
            | some rep => rep
            | none => synthesizedReport r.domain now fileErrMsg), true)
    ∧ (postRecon r primary fallback fileContent parse now fileErrMsg).1.status = 200
    ∧ (postRecon r primary fallback fileContent parse now fileErrMsg).1.success = true
    ∧ ∀ m, (postRecon r primary fallback fileContent parse now fileErrMsg).1 ≠
        PostResult.serverError m := by
  have hex : executeScript primary fallback =
      Settled.resolved "Reconnaissance completed successfully" primary.stdout := by
    simp [executeScript, executeScriptAttempts, h0, handlePythonProcess]
  cases hfp : fileContent >>= parse with
  | some rep =>
      simp [postRecon, hv, hex, hfp, PostResult.status, PostResult.success]
  | none =>
      cases hpp : parse primary.stdout with
      | some rep =>
          simp [postRecon, hv, hex, hfp, hpp, PostResult.status, PostResult.success]
      | none =>
          simp [postRecon, hv, hex, hfp, hpp, PostResult.status, PostResult.success]

theorem post_success_on_exit_zero_witness :
    validateRequest rEx = true ∧ pOk.event = ProcEvent.close 0 ∧
    postRecon rEx pOk fbEx none parseNone "TS" "boom" =
      (PostResult.ok (synthesizedReport "example.com" "TS" "boom"), true) :=
  ⟨by decide, rfl,
   (post_success_on_exit_zero rEx pOk fbEx none parseNone "TS" "boom"
      (by decide) rfl).1⟩

/-- Claim C3: a present `timeout` outside [30,300] or a present `workers`
outside [1,30] makes the POST handler answer 400 without spawning the
subprocess, while in-range or omitted values pass both bound checks. -/
theorem bounds_validation
    (r : ReconRequest) (primary fallback : ProcRun)
    (fileContent : Option String) (parse : String → Option Report)
    (now fileErrMsg : String) :
    (((∃ t, r.timeout = some t ∧ (t < 30 ∨ 300 < t)) ∨
      (∃ w, r.workers = some w ∧ (w < 1 ∨ 30 < w))) →
      postRecon r primary fallback fileContent parse now fileErrMsg =
        (PostResult.validationError, false)
      ∧ PostResult.validationError.status = 400)
    ∧ ((∀ t, r.timeout = some t → 30 ≤ t ∧ t ≤ 300) →
       (∀ w, r.workers = some w → 1 ≤ w ∧ w ≤ 30) →
       timeoutValid r.timeout = true ∧ workersValid r.workers = true) := by
  constructor
  · intro h
    have hv : validateRequest r = false := by
      rcases h with ⟨t, ht, hout⟩ | ⟨w, hw, hout⟩
      · have htv : timeoutValid r.timeout = false := by
          simp only [ht, timeoutValid, Bool.and_eq_false_iff,
            decide_eq_false_iff_not]
          omega
        simp [validateRequest, htv]
      · have hwv : workersValid r.workers = false := by
          simp only [hw, workersValid, Bool.and_eq_false_iff,
            decide_eq_false_iff_not]
          omega
        simp [validateRequest, hwv]
    simp [postRecon, hv, PostResult.status]
  · intro h1 h2
    constructor
    · cases ht : r.timeout with
      | none => rfl
      | some t =>
          have := h1 t ht
          simp only [timeoutValid, Bool.and_eq_true, decide_eq_true_eq]
          omega
    · cases hw : r.workers with
      | none => rfl
      | some w =>
          have := h2 w hw
          simp only [workersValid, Bool.and_eq_true, decide_eq_true_eq]
          omega

theorem bounds_validation_witness :
    (rBad.timeout = some 500 ∧ ((500 : Int) < 30 ∨ (300 : Int) < 500)) ∧
    postRecon rBad pOk fbEx none parseNone "TS" "E" =
      (PostResult.validationError, false) :=
  ⟨⟨rfl, by decide⟩,
   ((bounds_validation rBad pOk fbEx none parseNone "TS" "E").1
      (Or.inl ⟨500, rfl, by decide⟩)).1⟩

/-- Claim C4 counterexample: `sub.example.com` is a well-formed DNS-label
sequence ending in the public-suffix-like label `com`, yet the job
layer's regex rejects it — the POST handler answers 400 and never spawns
the subprocess — so "a domain that is a valid DNS-label sequence ending
in a public-suffix-like label is accepted" fails on the code. -/
theorem domain_validation_rejects_multilabel :
    specDnsDomain "sub.example.com" = true
    ∧ validDomainStr "sub.example.com" = false
    ∧ postRecon
        { domain := "sub.example.com", timeout := none, workers := none,
          verbose := false, jsonOnly := false, csvOnly := false }
        pOk fbEx none parseNone "TS" "E" =
      (PostResult.validationError, false) := by
  refine ⟨by decide, by decide, by decide⟩

/-- Claim C4 amended: the regex accepts exactly the two-label language —
a label of 1-63 characters over `[a-zA-Z0-9-]` starting alphanumeric
(and, when 63 characters long, also ending alphanumeric), one dot, and a
purely alphabetic suffix of length at least 2; every other domain string
(multi-label domains included) is rejected with 400 before the subprocess
is spawned. -/
theorem domain_validation_exact_language
    (r : ReconRequest) (primary fallback : ProcRun)
    (fileContent : Option String) (parse : String → Option Report)
    (now fileErrMsg : String) :
    validDomainStr r.domain = specTwoLabelDomain r.domain
    ∧ (validDomainStr r.domain = false →
        postRecon r primary fallback fileContent parse now fileErrMsg =
          (PostResult.validationError, false)
        ∧ PostResult.validationError.status = 400) := by
  constructor
  · cases hsp : splitOnDot r.domain.data with
    | nil => simp [validDomainStr, validDomainChars, specTwoLabelDomain, hsp]
    | cons p ps =>
      cases ps with
      | nil => simp [validDomainStr, validDomainChars, specTwoLabelDomain, hsp]
      | cons q qs =>
        cases qs with
        | nil =>
            simp [validDomainStr, validDomainChars, specTwoLabelDomain, hsp,
              labelMatch_eq_specLabel]
        | cons x xs =>
            simp [validDomainStr, validDomainChars, specTwoLabelDomain, hsp]
  · intro h
    have hv : validateRequest r = false := by simp [validateRequest, h]
    simp [postRecon, hv, PostResult.status]

theorem domain_validation_exact_language_witness :
    validDomainStr rNope.domain = false ∧
    postRecon rNope pOk fbEx none parseNone "TS" "E" =
      (PostResult.validationError, false) :=
  ⟨by decide,
   ((domain_validation_exact_language rNope pOk fbEx none parseNone "TS" "E").2
      (by decide)).1⟩


/-- Claim C9: in both GET /api/results handlers, a domain parameter with
any character outside letters, digits and hyphen — other than the single
dot of a well-formed domain — or with a second dot (so in particular `/`
or `..`) is rejected with HTTP 400 before any filesystem access; and a
domain that passes the check contains only such characters, exactly one
dot, no slash and no `..`, so the accessed path stays inside the results
directory. -/
theorem get_handlers_domain_guard (domain format : String)
    (fileContent : Option String) (parse : String → Option Report)
    (now : String) (fileOk : Bool) :
    (((∃ c ∈ domain.data, isLabelChar c = false ∧ c ≠ '.') ∨
      2 ≤ domain.data.count '.') →
      validDomainStr domain = false
      ∧ getResults domain format fileContent parse now = (GetResult.badRequest, false)
      ∧ downloadResults domain format fileOk = (DlResult.badRequest, false)
      ∧ GetResult.badRequest.status = 400)
    ∧ (validDomainStr domain = true →
        (∀ c ∈ domain.data, isLabelChar c = true ∨ c = '.')
        ∧ domain.data.count '.' = 1
        ∧ '/' ∉ domain.data
        ∧ ¬ ['.', '.'] <:+: domain.data) := by
  have main : validDomainStr domain = true →
      (∀ c ∈ domain.data, isLabelChar c = true ∨ c = '.')
      ∧ domain.data.count '.' = 1 := by
    intro hv
    obtain ⟨p, q, hsp, hl, hpd, hqd, hlab, hqlen, hqalpha⟩ :=
      valid_domain_structure hv
    constructor
    · intro c hc
      rw [hl] at hc
      rcases List.mem_append.mp hc with hcp | hcq
      · exact Or.inl (List.all_eq_true.mp (specLabel_all hlab) c hcp)
      · rcases List.mem_cons.mp hcq with hceq | hcq2
        · exact Or.inr hceq
        · exact Or.inl (alnum_isLabelChar
            (alpha_isAlphanum (List.all_eq_true.mp hqalpha c hcq2)))
    · rw [hl, List.count_append, List.count_cons]
      have h1 : p.count '.' = 0 := List.count_eq_zero.mpr hpd
      have h2 : q.count '.' = 0 := List.count_eq_zero.mpr hqd
      simp [h1, h2]
  constructor
  · intro h
    have hv : validDomainStr domain = false := by
      cases hvb : validDomainStr domain with
      | false => rfl
      | true =>
          exfalso
          obtain ⟨hchars, hcount⟩ := main hvb
          rcases h with ⟨c, hc, hbad, hne⟩ | hge
          · rcases hchars c hc with h1 | h2
            · rw [h1] at hbad; simp at hbad
            · exact hne h2
          · omega
    exact ⟨hv, by simp [getResults, hv], by simp [downloadResults, hv], rfl⟩
  · intro hv
    refine ⟨(main hv).1, (main hv).2, ?_, ?_⟩
    · intro hmem
      rcases (main hv).1 '/' hmem with h1 | h2
      · exact absurd h1 (by decide)
      · exact absurd h2 (by decide)
    · intro hinf
      have hle := hinf.sublist.count_le '.'
      rw [(main hv).2] at hle
      have h2 : (['.', '.'] : List Char).count '.' = 2 := by decide
      omega

theorem get_handlers_domain_guard_witness :
    2 ≤ ("../etc/passwd").data.count '.' ∧
    getResults "../etc/passwd" "json" none parseNone "TS" =
      (GetResult.badRequest, false) ∧
    downloadResults "../etc/passwd" "json" true = (DlResult.badRequest, false) :=
  ⟨by decide,
   ((get_handlers_domain_guard "../etc/passwd" "json" none parseNone "TS" true).1
      (Or.inr (by decide))).2.1,
   ((get_handlers_domain_guard "../etc/passwd" "json" none parseNone "TS" true).1
      (Or.inr (by decide))).2.2.1⟩

/-- Claim C10: for a valid domain, GET /api/results/:domain answers 404
with `success:false` when the file is missing or unreadable or, for
format `json`, when parsing fails; otherwise it answers 200 — the parsed
report wrapped with metadata for `json`, or the raw body as `text/csv`
with an attachment disposition for any other format. -/
theorem get_results_response_spec (domain format : String)
    (fileContent : Option String) (parse : String → Option Report) (now : String)
    (hv : validDomainStr domain = true) :
    (fileContent = none →
      getResults domain format fileContent parse now = (GetResult.notFound, true)
      ∧ GetResult.notFound.status = 404
      ∧ GetResult.notFound.successField = some false)
    ∧ (∀ body, fileContent = some body → format = "json" → parse body = none →
        getResults domain format fileContent parse now = (GetResult.notFound, true))
    ∧ (∀ body rep, fileContent = some body → format = "json" → parse body = some rep →
        getResults domain format fileContent parse now =
          (GetResult.jsonOk rep domain format now, true)
        ∧ (GetResult.jsonOk rep domain format now).status = 200
        ∧ (GetResult.jsonOk rep domain format now).successField = some true)
    ∧ (∀ body, fileContent = some body → format ≠ "json" →
        getResults domain format fileContent parse now =
          (GetResult.csvOk body "text/csv"
            ("attachment; filename=\"" ++ domain ++ "_subdomains.csv\""), true)
        ∧ (GetResult.csvOk body "text/csv"
            ("attachment; filename=\"" ++ domain ++ "_subdomains.csv\"")).status
            = 200) := by
  refine ⟨?_, ?_, ?_, ?_⟩
  · intro hf
    subst hf
    simp [getResults, readResults, hv, GetResult.status, GetResult.successField]
  · intro body hf hfmt hparse
    subst hf hfmt
    simp [getResults, readResults, hv, hparse]
  · intro body rep hf hfmt hparse
    subst hf hfmt
    simp [getResults, readResults, hv, hparse, GetResult.status,
      GetResult.successField]
  · intro body hf hfmt
    subst hf
    simp [getResults, readResults, hv, hfmt, GetResult.status]

theorem get_results_response_spec_witness :
    validDomainStr "example.com" = true ∧
    getResults "example.com" "json" (some "x") parseEx "TS" =
      (GetResult.jsonOk repEx "example.com" "json" "TS", true) :=
  ⟨by decide,
   ((get_results_response_spec "example.com" "json" (some "x") parseEx "TS"
      (by decide)).2.2.1 "x" repEx rfl rfl rfl).1⟩


theorem jsOr_timeout {v : Option Int} (h : timeoutValid v = true) :
    jsOr v 300 = v.getD 300 := by
  cases v with
  | none => rfl
  | some t =>
      simp only [timeoutValid, Bool.and_eq_true, decide_eq_true_eq] at h
      simp only [jsOr, Option.getD_some]
      rw [if_neg (by omega)]

theorem jsOr_workers {v : Option Int} (h : workersValid v = true) :
    jsOr v 20 = v.getD 20 := by
  cases v with
  | none => rfl
  | some w =>
      simp only [workersValid, Bool.and_eq_true, decide_eq_true_eq] at h
      simp only [jsOr, Option.getD_some]
      rw [if_neg (by omega)]

theorem valid_domain_has_dot {s : String} (h : validDomainStr s = true) :
    '.' ∈ s.data := by
  obtain ⟨p, q, hsp, hl, _⟩ := valid_domain_structure h
  rw [hl]
  simp

theorem valid_domain_notin_flags {s : String} (h : validDomainStr s = true) :
    s ∉ (["", "--verbose", "--json-only", "--csv-only"] : List String) := by
  intro hmem
  have hd := valid_domain_has_dot h
  simp only [List.mem_cons, List.not_mem_nil, or_false] at hmem
  rcases hmem with rfl | rfl | rfl | rfl <;> exact absurd hd (by decide)

/-- Claim C8: for an accepted request the spawn argument array is exactly
the script path, the domain, `--output-dir` with the results directory,
`--timeout` with the request's timeout (300 when omitted), `--workers`
with the request's workers (20 when omitted), followed by `--verbose`,
`--json-only` and `--csv-only` each present exactly when the
corresponding flag is set (assuming the caller-supplied script path and
results directory are not themselves empty or flag-like strings). -/
theorem script_args_spec (scriptPath resultsDir : String) (r : ReconRequest)
    (hv : validateRequest r = true)
    (hsp : scriptPath ∉ (["", "--verbose", "--json-only", "--csv-only"] : List String))
    (hdir : resultsDir ∉ (["", "--verbose", "--json-only", "--csv-only"] : List String)) :
    scriptArgs scriptPath r resultsDir =
      [JsArg.s scriptPath, JsArg.s r.domain,
       JsArg.s "--output-dir", JsArg.s resultsDir,
       JsArg.s "--timeout", JsArg.n (r.timeout.getD 300),
       JsArg.s "--workers", JsArg.n (r.workers.getD 20)]
      ++ (if r.verbose then [JsArg.s "--verbose"] else [])
      ++ (if r.jsonOnly then [JsArg.s "--json-only"] else [])
      ++ (if r.csvOnly then [JsArg.s "--csv-only"] else [])
    ∧ (JsArg.s "--verbose" ∈ scriptArgs scriptPath r resultsDir ↔ r.verbose = true)
    ∧ (JsArg.s "--json-only" ∈ scriptArgs scriptPath r resultsDir ↔ r.jsonOnly = true)
    ∧ (JsArg.s "--csv-only" ∈ scriptArgs scriptPath r resultsDir ↔ r.csvOnly = true) := by
  simp only [validateRequest, Bool.and_eq_true] at hv
  obtain ⟨⟨hvd, hvt⟩, hvw⟩ := hv
  simp only [List.mem_cons, List.not_mem_nil, or_false, not_or] at hsp hdir
  obtain ⟨hs1, hs2, hs3, hs4⟩ := hsp
  obtain ⟨hd1, hd2, hd3, hd4⟩ := hdir
  have hdom := valid_domain_notin_flags hvd
  simp only [List.mem_cons, List.not_mem_nil, or_false, not_or] at hdom
  obtain ⟨hm1, hm2, hm3, hm4⟩ := hdom
  have heq : scriptArgs scriptPath r resultsDir =
      [JsArg.s scriptPath, JsArg.s r.domain,
       JsArg.s "--output-dir", JsArg.s resultsDir,
       JsArg.s "--timeout", JsArg.n (r.timeout.getD 300),
       JsArg.s "--workers", JsArg.n (r.workers.getD 20)]
      ++ (if r.verbose then [JsArg.s "--verbose"] else [])
      ++ (if r.jsonOnly then [JsArg.s "--json-only"] else [])
      ++ (if r.csvOnly then [JsArg.s "--csv-only"] else []) := by
    unfold scriptArgs
    rw [jsOr_timeout hvt, jsOr_workers hvw]
    cases hvb : r.verbose <;> cases hjb : r.jsonOnly <;> cases hcb : r.csvOnly <;>
      simp [List.filter, hs1, hd1, hm1]
  refine ⟨heq, ?_, ?_, ?_⟩ <;>
    rw [heq] <;>
    cases hvb : r.verbose <;> cases hjb : r.jsonOnly <;> cases hcb : r.csvOnly <;>
      simp [List.mem_append, Ne.symm hs2, Ne.symm hs3, Ne.symm hs4,
        Ne.symm hd2, Ne.symm hd3, Ne.symm hd4,
        Ne.symm hm2, Ne.symm hm3, Ne.symm hm4]

theorem script_args_spec_witness :
    validateRequest rFlags = true ∧
    scriptArgs "main.py" rFlags "results/example.com" =
      [JsArg.s "main.py", JsArg.s "example.com", JsArg.s "--output-dir",
       JsArg.s "results/example.com", JsArg.s "--timeout", JsArg.n 60,
       JsArg.s "--workers", JsArg.n 20, JsArg.s "--verbose"] :=
  ⟨by decide,
   (script_args_spec "main.py" "results/example.com" rFlags
      (by decide) (by decide) (by decide)).1⟩

end ReconApi
